import Mathlib

/-!
Verification of the word_power exercise-authoring tool.

The development shallowly embeds the three source files:

* `src/exercise.rs` — the plain-data exercise model together with its
  serde-derived, adjacently tagged JSON encoding (tag field `"type"`,
  content field `"data"`).  The generic JSON text layer is an external
  collaborator, so serialization is modelled on JSON trees.
* `src/entry.rs` — the interactive entry engine.  The inquire prompt
  widgets are external collaborators; they are modelled by a scripted
  list of input events, each prompt consuming the next event.  A prompt
  that fails (user abort, or an event of the wrong shape) yields `none`,
  matching the Rust `unwrap()` panic that unwinds the whole run.
  Invalid numeric input is re-prompted by the widget itself and hence
  never appears in the event stream.
* `src/main.rs` — `execute_data` and `main`, over an abstract file state
  (`none` = the storage file does not exist).
-/

namespace WordPower

/-- Entry of the `Matching` variant (src/exercise.rs): `question`, `answer`. -/
structure Matching where
  question : String
  answer : String
deriving DecidableEq, Repr

/-- Entry of the `YesNo` variant (src/exercise.rs): `question`, boolean `answer`. -/
structure YesNo where
  question : String
  answer : Bool
deriving DecidableEq, Repr

/-- Entry of the `Recall` variant (src/exercise.rs): `question`, free-text `answer`. -/
structure Recall where
  question : String
  answer : String
deriving DecidableEq, Repr

/-- Entry of the `Mcq` variant (src/exercise.rs): `question`, `answer`, `options`. -/
structure Mcq where
  question : String
  answer : String
  options : List String
deriving DecidableEq, Repr

/-- Entry of the `RecognizeRoot` variant (src/exercise.rs): `question`, `answer`, `example`. -/
structure RecognizeRoot where
  question : String
  answer : String
  «example» : String
deriving DecidableEq, Repr

/-- Entry of the `FillInTheBlank` variant (src/exercise.rs): `question`, `answer`, `blank`.
No authoring path exists for this variant in the entry engine. -/
structure FillInTheBlank where
  question : String
  answer : String
  blank : String
deriving DecidableEq, Repr

/-- Entry of the `SameOrOpposite` variant (src/exercise.rs): `first_word`, `second_word`,
boolean `answer`.  No authoring path exists for this variant in the entry engine. -/
structure SameOrOpposite where
  first_word : String
  second_word : String
  answer : Bool
deriving DecidableEq, Repr

/-- The tagged union `Exercise` of src/exercise.rs: each variant carries the
ordered batch of entries authored (or loaded) for that variant instance. -/
inductive Exercise where
  | Matching (xs : List Matching)
  | YesNo (xs : List YesNo)
  | Recall (xs : List Recall)
  | Mcq (xs : List Mcq)
  | RecognizeRoot (xs : List RecognizeRoot)
  | FillInTheBlank (xs : List FillInTheBlank)
  | SameOrOpposite (xs : List SameOrOpposite)
deriving DecidableEq, Repr

/-- JSON trees, the interface to the external serde_json text layer.  Only the
constructors the data model uses are needed. -/
inductive Json where
  | str (s : String)
  | bool (b : Bool)
  | arr (xs : List Json)
  | obj (fields : List (String × Json))

/-- Serde-derived serialization of a `Matching` entry: fields in declaration order. -/
def Matching.toJson (x : Matching) : Json :=
  .obj [("question", .str x.question), ("answer", .str x.answer)]

/-- Serde-derived serialization of a `YesNo` entry. -/
def YesNo.toJson (x : YesNo) : Json :=
  .obj [("question", .str x.question), ("answer", .bool x.answer)]

/-- Serde-derived serialization of a `Recall` entry. -/
def Recall.toJson (x : Recall) : Json :=
  .obj [("question", .str x.question), ("answer", .str x.answer)]

/-- Serde-derived serialization of an `Mcq` entry. -/
def Mcq.toJson (x : Mcq) : Json :=
  .obj [("question", .str x.question), ("answer", .str x.answer),
        ("options", .arr (x.options.map .str))]

/-- Serde-derived serialization of a `RecognizeRoot` entry. -/
def RecognizeRoot.toJson (x : RecognizeRoot) : Json :=
  .obj [("question", .str x.question), ("answer", .str x.answer),
        ("example", .str x.«example»)]

/-- Serde-derived serialization of a `FillInTheBlank` entry. -/
def FillInTheBlank.toJson (x : FillInTheBlank) : Json :=
  .obj [("question", .str x.question), ("answer", .str x.answer),
        ("blank", .str x.blank)]

/-- Serde-derived serialization of a `SameOrOpposite` entry. -/
def SameOrOpposite.toJson (x : SameOrOpposite) : Json :=
  .obj [("first_word", .str x.first_word), ("second_word", .str x.second_word),
        ("answer", .bool x.answer)]

/-- Serde-derived serialization of the `Exercise` enum with
`#[serde(tag = "type", content = "data")]`: an object holding the variant
name under `"type"` and the entry batch under `"data"`. -/
def Exercise.toJson : Exercise → Json
  | .Matching xs => .obj [("type", .str "Matching"), ("data", .arr (xs.map Matching.toJson))]
  | .YesNo xs => .obj [("type", .str "YesNo"), ("data", .arr (xs.map YesNo.toJson))]
  | .Recall xs => .obj [("type", .str "Recall"), ("data", .arr (xs.map Recall.toJson))]
  | .Mcq xs => .obj [("type", .str "Mcq"), ("data", .arr (xs.map Mcq.toJson))]
  | .RecognizeRoot xs =>
      .obj [("type", .str "RecognizeRoot"), ("data", .arr (xs.map RecognizeRoot.toJson))]
  | .FillInTheBlank xs =>
      .obj [("type", .str "FillInTheBlank"), ("data", .arr (xs.map FillInTheBlank.toJson))]
  | .SameOrOpposite xs =>
      .obj [("type", .str "SameOrOpposite"), ("data", .arr (xs.map SameOrOpposite.toJson))]

/-- A `Vec<Exercise>` serializes as a JSON array of the elements in order. -/
def exercisesToJson (es : List Exercise) : Json :=
  .arr (es.map Exercise.toJson)

/-- Serde-derived deserialization of a `Matching` entry (canonical field layout,
as produced by the serializer). -/
def Matching.fromJson : Json → Option Matching
  | .obj [("question", .str q), ("answer", .str a)] => some ⟨q, a⟩
  | _ => none

/-- Serde-derived deserialization of a `YesNo` entry. -/
def YesNo.fromJson : Json → Option YesNo
  | .obj [("question", .str q), ("answer", .bool a)] => some ⟨q, a⟩
  | _ => none

/-- Serde-derived deserialization of a `Recall` entry. -/
def Recall.fromJson : Json → Option Recall
  | .obj [("question", .str q), ("answer", .str a)] => some ⟨q, a⟩
  | _ => none

/-- Deserialization of a JSON array of strings (`Vec<String>`). -/
def stringsFromJson : List Json → Option (List String)
  | [] => some []
  | .str s :: js => (stringsFromJson js).map fun ss => s :: ss
  | _ => none

/-- Serde-derived deserialization of an `Mcq` entry. -/
def Mcq.fromJson : Json → Option Mcq
  | .obj [("question", .str q), ("answer", .str a), ("options", .arr js)] =>
      (stringsFromJson js).map fun opts => ⟨q, a, opts⟩
  | _ => none

/-- Serde-derived deserialization of a `RecognizeRoot` entry. -/
def RecognizeRoot.fromJson : Json → Option RecognizeRoot
  | .obj [("question", .str q), ("answer", .str a), ("example", .str e)] => some ⟨q, a, e⟩
  | _ => none

/-- Serde-derived deserialization of a `FillInTheBlank` entry. -/
def FillInTheBlank.fromJson : Json → Option FillInTheBlank
  | .obj [("question", .str q), ("answer", .str a), ("blank", .str b)] => some ⟨q, a, b⟩
  | _ => none

/-- Serde-derived deserialization of a `SameOrOpposite` entry. -/
def SameOrOpposite.fromJson : Json → Option SameOrOpposite
  | .obj [("first_word", .str f), ("second_word", .str s), ("answer", .bool a)] =>
      some ⟨f, s, a⟩
  | _ => none

/-- Deserialization of a JSON array elementwise; fails if any element fails. -/
def parseList {α : Type} (f : Json → Option α) : List Json → Option (List α)
  | [] => some []
  | j :: js => do
      let a ← f j
      let as ← parseList f js
      some (a :: as)

/-- Serde-derived deserialization of the adjacently tagged `Exercise` enum. -/
def Exercise.fromJson : Json → Option Exercise
  | .obj [("type", .str t), ("data", .arr js)] =>
      if t = "Matching" then (parseList Matching.fromJson js).map .Matching
      else if t = "YesNo" then (parseList YesNo.fromJson js).map .YesNo
      else if t = "Recall" then (parseList Recall.fromJson js).map .Recall
      else if t = "Mcq" then (parseList Mcq.fromJson js).map .Mcq
      else if t = "RecognizeRoot" then (parseList RecognizeRoot.fromJson js).map .RecognizeRoot
      else if t = "FillInTheBlank" then (parseList FillInTheBlank.fromJson js).map .FillInTheBlank
      else if t = "SameOrOpposite" then (parseList SameOrOpposite.fromJson js).map .SameOrOpposite
      else none
  | _ => none

/-- Deserialization of a `Vec<Exercise>` from a JSON value: it must be an array
whose every element deserializes. -/
def exercisesFromJson : Json → Option (List Exercise)
  | .arr js => parseList Exercise.fromJson js
  | _ => none

/-- One scripted response of the Prompt Collaborator (the inquire widgets of
src/entry.rs).  `abort` models the user cancelling or interrupting a prompt.
Invalid numeric input never appears: `CustomType` re-prompts until the value
is valid or the prompt is aborted. -/
inductive Input where
  | text (s : String)
  | nat (n : Nat)
  | select (i : Nat)
  | confirm (b : Bool)
  | abort
deriving DecidableEq, Repr

/-- Model of `Text::new(..).prompt().unwrap()`: consume a text response; any
other event (in particular an abort) is the fatal unwrap panic, `none`. -/
def promptText : List Input → Option (String × List Input)
  | Input.text s :: rest => some (s, rest)
  | _ => none

/-- Model of `inquire::CustomType::<usize>::new(..).prompt().unwrap()`. -/
def promptNat : List Input → Option (Nat × List Input)
  | Input.nat n :: rest => some (n, rest)
  | _ => none

/-- Model of `Confirm::new(..).prompt().unwrap()`. -/
def promptConfirm : List Input → Option (Bool × List Input)
  | Input.confirm b :: rest => some (b, rest)
  | _ => none

/-- Model of `Select::new(.., opts).prompt().unwrap()`: the scripted selection
index must denote one of the offered options; an empty option list can satisfy
no index, so selecting over it always fails (inquire rejects an empty `Select`
and the `unwrap` panics). -/
def promptSelect {α : Type} (opts : List α) : List Input → Option (α × List Input)
  | Input.select i :: rest =>
      if h : i < opts.length then some (opts.get ⟨i, h⟩, rest) else none
  | _ => none

/-- Model of a Rust `(0..n).map(|_| ...).collect()` over prompting closures:
run the step `n` times, threading the event stream, failing if any step fails. -/
def readCount {α : Type} (f : List Input → Option (α × List Input)) :
    Nat → List Input → Option (List α × List Input)
  | 0, inp => some ([], inp)
  | n + 1, inp => do
      let (a, inp1) ← f inp
      let (as, inp2) ← readCount f n inp1
      some (a :: as, inp2)

/-- Model of `xs.into_iter().map(|x| ...).collect()` over prompting closures. -/
def readList {α β : Type} (f : α → List Input → Option (β × List Input)) :
    List α → List Input → Option (List β × List Input)
  | [], inp => some ([], inp)
  | a :: as, inp => do
      let (b, inp1) ← f a inp
      let (bs, inp2) ← readList f as inp1
      some (b :: bs, inp2)

/-- Embedding of `read_questions` (src/entry.rs): ask how many questions, then
read that many free-text questions (the 1-based numbering in the prompt string
is display-only). -/
def read_questions (inp : List Input) : Option (List String × List Input) := do
  let (n, inp1) ← promptNat inp
  readCount promptText n inp1

/-- Embedding of `read_options` (src/entry.rs): read `n` free-text options (the
alphabetic labels in the prompt string are display-only). -/
def read_options (n : Nat) (inp : List Input) : Option (List String × List Input) :=
  readCount promptText n inp

/-- Embedding of `impl Entry for Matching` (src/entry.rs): read the questions,
read one option per question (a single shared pool), then for each question in
order select an answer from that pool. -/
def Matching.read (inp : List Input) : Option (List Matching × List Input) := do
  let (questions, inp1) ← read_questions inp
  let (options, inp2) ← read_options questions.length inp1
  readList
    (fun question inp' => do
      let (answer, inp'') ← promptSelect options inp'
      some (Matching.mk question answer, inp''))
    questions inp2

/-- Embedding of `impl Entry for YesNo` (src/entry.rs). -/
def YesNo.read (inp : List Input) : Option (List YesNo × List Input) := do
  let (questions, inp1) ← read_questions inp
  readList
    (fun question inp' => do
      let (answer, inp'') ← promptConfirm inp'
      some (YesNo.mk question answer, inp''))
    questions inp1

/-- Embedding of `impl Entry for Recall` (src/entry.rs). -/
def Recall.read (inp : List Input) : Option (List Recall × List Input) := do
  let (questions, inp1) ← read_questions inp
  readList
    (fun question inp' => do
      let (answer, inp'') ← promptText inp'
      some (Recall.mk question answer, inp''))
    questions inp1

/-- Per-question body of the `Mcq` reader (the fused pair of `map` closures in
src/entry.rs): read the question text, its own `m` options, then a selection
from exactly those options. -/
def mcqQuestion (m : Nat) (inp : List Input) : Option (Mcq × List Input) := do
  let (q, i1) ← promptText inp
  let (opts, i2) ← read_options m i1
  let (answer, i3) ← promptSelect opts i2
  some (Mcq.mk q answer opts, i3)

/-- Embedding of `impl Entry for Mcq` (src/entry.rs): ask the question count
`n` and the option count `m` upfront; then, per question (Rust's two chained
lazy `map`s over `0..n` fuse into one per-element pass), run `mcqQuestion`. -/
def Mcq.read (inp : List Input) : Option (List Mcq × List Input) := do
  let (n, inp1) ← promptNat inp
  let (m, inp2) ← promptNat inp1
  readCount (mcqQuestion m) n inp2

/-- Embedding of `impl Entry for RecognizeRoot` (src/entry.rs): per question
(the two chained lazy `map`s fuse), read the question text, the example, and
the answer. -/
def RecognizeRoot.read (inp : List Input) : Option (List RecognizeRoot × List Input) := do
  let (n, inp1) ← promptNat inp
  readCount
    (fun inp' => do
      let (q, i1) ← promptText inp'
      let (ex, i2) ← promptText i1
      let (answer, i3) ← promptText i2
      some (RecognizeRoot.mk q answer ex, i3))
    n inp1

/-- The `EntryOptions` menu enum of src/entry.rs.  `SaveAndQuit` is the choice
the specification calls Stop. -/
inductive EntryOptions where
  | Matching
  | YesNo
  | Recall
  | Mcq
  | RecognizeRoot
  | SaveAndQuit
deriving DecidableEq, Repr

/-- Embedding of `EntryOptions::all` (src/entry.rs). -/
def EntryOptions.all : List EntryOptions :=
  [.Matching, .YesNo, .Recall, .Mcq, .RecognizeRoot, .SaveAndQuit]

/-- Embedding of `impl Entry for Exercise` (src/entry.rs): the `map_while`
loop over type selections.  The loop is driven by explicit fuel; each
iteration consumes at least the type-selection event, and a run that ends by
choosing `SaveAndQuit` within its fuel is unaffected by the extra fuel. -/
def Exercise.read : Nat → List Input → Option (List Exercise × List Input)
  | 0, _ => none
  | fuel + 1, inp => do
      let (tp, inp1) ← promptSelect EntryOptions.all inp
      match tp with
      | .Matching => do
          let (xs, inp2) ← Matching.read inp1
          let (es, inp3) ← Exercise.read fuel inp2
          some (Exercise.Matching xs :: es, inp3)
      | .YesNo => do
          let (xs, inp2) ← YesNo.read inp1
          let (es, inp3) ← Exercise.read fuel inp2
          some (Exercise.YesNo xs :: es, inp3)
      | .Recall => do
          let (xs, inp2) ← Recall.read inp1
          let (es, inp3) ← Exercise.read fuel inp2
          some (Exercise.Recall xs :: es, inp3)
      | .Mcq => do
          let (xs, inp2) ← Mcq.read inp1
          let (es, inp3) ← Exercise.read fuel inp2
          some (Exercise.Mcq xs :: es, inp3)
      | .RecognizeRoot => do
          let (xs, inp2) ← RecognizeRoot.read inp1
          let (es, inp3) ← Exercise.read fuel inp2
          some (Exercise.RecognizeRoot xs :: es, inp3)
      | .SaveAndQuit => some ([], inp1)

/-- Content of the storage file `data.json`.  `json j` is content whose text
parses (by the external serde_json text layer) as the JSON value `j`;
`garbage s` is content that is not valid JSON at all.  Distinct values stand
for byte-distinct file contents. -/
inductive FileContent where
  | json (j : Json)
  | garbage (s : String)

/-- Model of `serde_json::from_str::<Vec<Exercise>>` on file content: invalid
JSON text or a JSON value of the wrong shape both fail. -/
def parseExercises : FileContent → Option (List Exercise)
  | .json j => exercisesFromJson j
  | .garbage _ => none

/-- The fatal store-level error of one run: existing storage content failed to
deserialize (`serde_json` error propagated by `?` in `execute_data`). -/
inductive StoreError where
  | parseError
deriving DecidableEq, Repr

/-- Display string of the propagated error; the precise serde_json message
text is external, a fixed stand-in is used. -/
def StoreError.message : StoreError → String
  | .parseError => "invalid content in data.json"

/-- Outcome of `execute_data` over the storage file: the file state after the
call (`none` = file still does not exist) and the error, if any, it returned. -/
structure RunResult where
  fs : Option FileContent
  err : Option StoreError

/-- Embedding of the storage half of `execute_data` (src/main.rs), taking the
already-collected new exercises.  If the file exists its content is parsed
(a failure propagates before anything is written, leaving the file as it
was); otherwise the new exercises alone form the collection; on success the
serialized full collection overwrites the file. -/
def execute_data (fs : Option FileContent) (new_exercises : List Exercise) : RunResult :=
  match fs with
  | some content =>
      match parseExercises content with
      | some existing => ⟨some (.json (exercisesToJson (existing ++ new_exercises))), none⟩
      | none => ⟨some content, some .parseError⟩
  | none => ⟨some (.json (exercisesToJson new_exercises)), none⟩

/-- Observable outcome of one process run of `main`: the storage file state,
the lines printed to stdout and stderr, and the process exit code. -/
structure MainResult where
  fs : Option FileContent
  stdout : List String
  stderr : List String
  exitCode : Nat

/-- Exit code of a Rust process terminated by an unwrap panic. -/
def panicExitCode : Nat := 101

/-- Stderr line of a Rust unwrap panic; the exact text is runtime-provided. -/
def panicMessage : String := "panicked at unwrap on an error value"

/-- Embedding of `main` (src/main.rs).  With `--input` anywhere among the
arguments, `Exercise::read` runs first; a prompt abort panics the process
before the storage file is ever touched.  After a completed session
`execute_data` runs; its error, if any, is caught by `unwrap_or_else` and
printed as `Error: ...` on stderr, after which `main` still returns unit and
the process exits 0.  Without `--input` a usage line is printed on stdout. -/
def main (args : List String) (fuel : Nat) (inp : List Input)
    (fs : Option FileContent) : MainResult :=
  if args.contains "--input" then
    match Exercise.read fuel inp with
    | none => ⟨fs, [], [panicMessage], panicExitCode⟩
    | some (new_exercises, _) =>
        match execute_data fs new_exercises with
        | ⟨fs', none⟩ => ⟨fs', [], [], 0⟩
        | ⟨fs', some e⟩ => ⟨fs', [], ["Error: " ++ e.message], 0⟩
  else
    ⟨fs, ["Usage: " ++ (args.headD "program") ++ " --input"], [], 0⟩

/-! Round-trip lemmas for the serde-derived encoding. -/

theorem stringsFromJson_map (l : List String) :
    stringsFromJson (l.map Json.str) = some l := by
  induction l with
  | nil => rfl
  | cons s ss ih => simp [stringsFromJson, ih]

theorem matching_json_round (x : Matching) :
    Matching.fromJson x.toJson = some x := by
  cases x
  rfl

theorem yesno_json_round (x : YesNo) :
    YesNo.fromJson x.toJson = some x := by
  cases x
  rfl

theorem recall_json_round (x : Recall) :
    Recall.fromJson x.toJson = some x := by
  cases x
  rfl

theorem mcq_json_round (x : Mcq) :
    Mcq.fromJson x.toJson = some x := by
  cases x
  simp [Mcq.toJson, Mcq.fromJson, stringsFromJson_map]

theorem recognizeRoot_json_round (x : RecognizeRoot) :
    RecognizeRoot.fromJson x.toJson = some x := by
  cases x
  rfl

theorem fillInTheBlank_json_round (x : FillInTheBlank) :
    FillInTheBlank.fromJson x.toJson = some x := by
  cases x
  rfl

theorem sameOrOpposite_json_round (x : SameOrOpposite) :
    SameOrOpposite.fromJson x.toJson = some x := by
  cases x
  rfl

theorem parseList_map {α : Type} (f : Json → Option α) (g : α → Json)
    (hfg : ∀ a, f (g a) = some a) (l : List α) :
    parseList f (l.map g) = some l := by
  induction l with
  | nil => rfl
  | cons a as ih => simp [parseList, hfg, ih]

theorem exercise_json_round (e : Exercise) :
    Exercise.fromJson e.toJson = some e := by
  cases e <;>
    simp [Exercise.toJson, Exercise.fromJson,
      parseList_map Matching.fromJson Matching.toJson matching_json_round,
      parseList_map YesNo.fromJson YesNo.toJson yesno_json_round,
      parseList_map Recall.fromJson Recall.toJson recall_json_round,
      parseList_map Mcq.fromJson Mcq.toJson mcq_json_round,
      parseList_map RecognizeRoot.fromJson RecognizeRoot.toJson recognizeRoot_json_round,
      parseList_map FillInTheBlank.fromJson FillInTheBlank.toJson fillInTheBlank_json_round,
      parseList_map SameOrOpposite.fromJson SameOrOpposite.toJson sameOrOpposite_json_round]

theorem exercisesFromJson_toJson (es : List Exercise) :
    exercisesFromJson (exercisesToJson es) = some es := by
  simp [exercisesFromJson, exercisesToJson,
    parseList_map Exercise.fromJson Exercise.toJson exercise_json_round]

theorem parseExercises_serialized (es : List Exercise) :
    parseExercises (.json (exercisesToJson es)) = some es := by
  simp [parseExercises, exercisesFromJson_toJson]

/-! Structural lemmas about the prompt-driven readers. -/

theorem promptSelect_mem {α : Type} {opts : List α} {inp : List Input}
    {a : α} {rest : List Input} (h : promptSelect opts inp = some (a, rest)) :
    a ∈ opts := by
  match inp with
  | [] => exact absurd h (by simp [promptSelect])
  | Input.select i :: tl =>
      rw [promptSelect] at h
      split at h
      · simp only [Option.some.injEq, Prod.mk.injEq] at h
        exact h.1 ▸ List.get_mem _ _ _
      · exact absurd h (by simp)
  | Input.text s :: tl => exact absurd h (by simp [promptSelect])
  | Input.nat n :: tl => exact absurd h (by simp [promptSelect])
  | Input.confirm b :: tl => exact absurd h (by simp [promptSelect])
  | Input.abort :: tl => exact absurd h (by simp [promptSelect])

theorem promptSelect_nil {α : Type} (inp : List Input) :
    promptSelect ([] : List α) inp = none := by
  match inp with
  | [] => rfl
  | Input.select i :: tl => simp [promptSelect]
  | Input.text s :: tl => rfl
  | Input.nat n :: tl => rfl
  | Input.confirm b :: tl => rfl
  | Input.abort :: tl => rfl

theorem readCount_length {α : Type} {f : List Input → Option (α × List Input)}
    {n : Nat} {inp : List Input} {as : List α} {rest : List Input}
    (h : readCount f n inp = some (as, rest)) : as.length = n := by
  induction n generalizing inp as rest with
  | zero =>
      rw [readCount] at h
      simp only [Option.some.injEq, Prod.mk.injEq] at h
      rw [← h.1]
      rfl
  | succ k ih =>
      rw [readCount] at h
      cases hf : f inp with
      | none => simp [hf] at h
      | some p =>
          obtain ⟨a, inp1⟩ := p
          simp only [hf, Option.bind_eq_bind, Option.some_bind] at h
          cases hr : readCount f k inp1 with
          | none => simp [hr] at h
          | some q =>
              obtain ⟨as', inp2⟩ := q
              simp only [hr, Option.some_bind, Option.some.injEq, Prod.mk.injEq] at h
              rw [← h.1]
              simp [ih hr]

theorem readCount_forall {α : Type} {f : List Input → Option (α × List Input)}
    {P : α → Prop} (hf : ∀ i a i', f i = some (a, i') → P a)
    {n : Nat} {inp : List Input} {as : List α} {rest : List Input}
    (h : readCount f n inp = some (as, rest)) : ∀ a ∈ as, P a := by
  induction n generalizing inp as rest with
  | zero =>
      rw [readCount] at h
      simp only [Option.some.injEq, Prod.mk.injEq] at h
      rw [← h.1]
      intro a ha
      exact absurd ha (List.not_mem_nil a)
  | succ k ih =>
      rw [readCount] at h
      cases hstep : f inp with
      | none => simp [hstep] at h
      | some p =>
          obtain ⟨a0, inp1⟩ := p
          simp only [hstep, Option.bind_eq_bind, Option.some_bind] at h
          cases hr : readCount f k inp1 with
          | none => simp [hr] at h
          | some q =>
              obtain ⟨as', inp2⟩ := q
              simp only [hr, Option.some_bind, Option.some.injEq, Prod.mk.injEq] at h
              rw [← h.1]
              intro a ha
              rcases List.mem_cons.mp ha with h1 | h2
              · exact h1 ▸ hf inp a0 inp1 hstep
              · exact ih hr a h2

theorem readList_length {α β : Type} {f : α → List Input → Option (β × List Input)}
    {l : List α} {inp : List Input} {bs : List β} {rest : List Input}
    (h : readList f l inp = some (bs, rest)) : bs.length = l.length := by
  induction l generalizing inp bs rest with
  | nil =>
      rw [readList] at h
      simp only [Option.some.injEq, Prod.mk.injEq] at h
      rw [← h.1]
      rfl
  | cons a as ih =>
      rw [readList] at h
      cases hf : f a inp with
      | none => simp [hf] at h
      | some p =>
          obtain ⟨b, inp1⟩ := p
          simp only [hf, Option.bind_eq_bind, Option.some_bind] at h
          cases hr : readList f as inp1 with
          | none => simp [hr] at h
          | some q =>
              obtain ⟨bs', inp2⟩ := q
              simp only [hr, Option.some_bind, Option.some.injEq, Prod.mk.injEq] at h
              rw [← h.1]
              simp [ih hr]

theorem readList_forall {α β : Type} {f : α → List Input → Option (β × List Input)}
    {P : β → Prop} (hf : ∀ a i b i', f a i = some (b, i') → P b)
    {l : List α} {inp : List Input} {bs : List β} {rest : List Input}
    (h : readList f l inp = some (bs, rest)) : ∀ b ∈ bs, P b := by
  induction l generalizing inp bs rest with
  | nil =>
      rw [readList] at h
      simp only [Option.some.injEq, Prod.mk.injEq] at h
      rw [← h.1]
      intro b hb
      exact absurd hb (List.not_mem_nil b)
  | cons a as ih =>
      rw [readList] at h
      cases hstep : f a inp with
      | none => simp [hstep] at h
      | some p =>
          obtain ⟨b0, inp1⟩ := p
          simp only [hstep, Option.bind_eq_bind, Option.some_bind] at h
          cases hr : readList f as inp1 with
          | none => simp [hr] at h
          | some q =>
              obtain ⟨bs', inp2⟩ := q
              simp only [hr, Option.some_bind, Option.some.injEq, Prod.mk.injEq] at h
              rw [← h.1]
              intro b hb
              rcases List.mem_cons.mp hb with h1 | h2
              · exact h1 ▸ hf a inp b0 inp1 hstep
              · exact ih hr b h2

/-! Claim theorems. -/

/-- C1: when the existing storage file parses as the collection `existing`
(M elements), persisting the newly authored `new` (N elements) succeeds and
yields a file whose parsed collection has exactly M + N elements, the first M
being `existing` unchanged and in order, and the last N being `new` in
authoring order. -/
theorem C1_append_only (content : FileContent) (existing new : List Exercise)
    (h : parseExercises content = some existing) :
    (execute_data (some content) new).err = none ∧
    ∃ allEx, (execute_data (some content) new).fs = some (.json (exercisesToJson allEx)) ∧
      parseExercises (.json (exercisesToJson allEx)) = some allEx ∧
      allEx.length = existing.length + new.length ∧
      allEx.take existing.length = existing ∧
      allEx.drop existing.length = new := by
  have hev : execute_data (some content) new =
      ⟨some (.json (exercisesToJson (existing ++ new))), none⟩ := by
    simp only [execute_data, h]
  rw [hev]
  exact ⟨rfl, existing ++ new, rfl, parseExercises_serialized _,
    by simp, List.take_left existing new, List.drop_left existing new⟩

/-- Witness for C1 at a concrete file of one exercise and one new exercise. -/
theorem C1_append_only_witness :
    parseExercises
        (.json (exercisesToJson [Exercise.YesNo [YesNo.mk "old" true]])) =
      some [Exercise.YesNo [YesNo.mk "old" true]] ∧
    ((execute_data
        (some (.json (exercisesToJson [Exercise.YesNo [YesNo.mk "old" true]])))
        [Exercise.Recall [Recall.mk "new" "ans"]]).err = none ∧
      ∃ allEx,
        (execute_data
            (some (.json (exercisesToJson [Exercise.YesNo [YesNo.mk "old" true]])))
            [Exercise.Recall [Recall.mk "new" "ans"]]).fs =
          some (.json (exercisesToJson allEx)) ∧
        parseExercises (.json (exercisesToJson allEx)) = some allEx ∧
        allEx.length = [Exercise.YesNo [YesNo.mk "old" true]].length +
          [Exercise.Recall [Recall.mk "new" "ans"]].length ∧
        allEx.take [Exercise.YesNo [YesNo.mk "old" true]].length =
          [Exercise.YesNo [YesNo.mk "old" true]] ∧
        allEx.drop [Exercise.YesNo [YesNo.mk "old" true]].length =
          [Exercise.Recall [Recall.mk "new" "ans"]]) :=
  ⟨rfl, C1_append_only _ [Exercise.YesNo [YesNo.mk "old" true]]
    [Exercise.Recall [Recall.mk "new" "ans"]] rfl⟩

/-- C2: serializing any valid in-memory collection of Exercise instances —
over all seven variants, FillInTheBlank and SameOrOpposite included — and
parsing the result yields a collection equal to the original. -/
theorem C2_round_trip (es : List Exercise) :
    parseExercises (.json (exercisesToJson es)) = some es :=
  parseExercises_serialized es

/-- C3 counterexample: with `data.json` holding syntactically invalid content,
the run fails with the parse error, reports it on stderr, and leaves the file
unchanged — but the process exit status is 0, not non-zero: `main` swallows
the error with `unwrap_or_else` and returns normally. -/
theorem C3_counterexample :
    (main ["word_power", "--input"] 1 [Input.select 5]
        (some (.garbage "not json"))).exitCode = 0 ∧
    (main ["word_power", "--input"] 1 [Input.select 5]
        (some (.garbage "not json"))).stderr =
      ["Error: " ++ StoreError.parseError.message] ∧
    (main ["word_power", "--input"] 1 [Input.select 5]
        (some (.garbage "not json"))).fs = some (.garbage "not json") :=
  ⟨rfl, rfl, rfl⟩

/-- C3 amended: when the authoring session completes and the storage file
exists with content that does not parse, the operation fails with the parse
error, the error is surfaced to the user as an `Error:` line on stderr, the
storage file is left byte-identical to before the attempt, and the process
exits with status 0 — the error is caught and reported, not turned into a
non-zero exit status. -/
theorem C3_parse_error_leaves_file (args : List String) (fuel : Nat)
    (inp : List Input) (content : FileContent) (new : List Exercise)
    (rest : List Input)
    (hargs : args.contains "--input" = true)
    (hread : Exercise.read fuel inp = some (new, rest))
    (hparse : parseExercises content = none) :
    execute_data (some content) new = ⟨some content, some .parseError⟩ ∧
    main args fuel inp (some content) =
      ⟨some content, [], ["Error: " ++ StoreError.parseError.message], 0⟩ := by
  have hex : execute_data (some content) new = ⟨some content, some .parseError⟩ := by
    simp only [execute_data, hparse]
  refine ⟨hex, ?_⟩
  simp only [main, hargs, if_true, hread, hex]

/-- Witness for the amended C3 at a concrete corrupt file. -/
theorem C3_parse_error_leaves_file_witness :
    (["word_power", "--input"].contains "--input" = true ∧
      Exercise.read 1 [Input.select 5] = some ([], []) ∧
      parseExercises (.garbage "not json") = none) ∧
    (execute_data (some (.garbage "not json")) [] =
        ⟨some (.garbage "not json"), some .parseError⟩ ∧
      main ["word_power", "--input"] 1 [Input.select 5]
          (some (.garbage "not json")) =
        ⟨some (.garbage "not json"), [],
          ["Error: " ++ StoreError.parseError.message], 0⟩) :=
  ⟨⟨rfl, rfl, rfl⟩,
    C3_parse_error_leaves_file ["word_power", "--input"] 1 [Input.select 5]
      (.garbage "not json") [] [] rfl rfl rfl⟩

/-- C4: when the storage file does not exist, the persist step succeeds and
creates it containing exactly the newly authored instances in authoring
order, with no other elements. -/
theorem C4_missing_file (new : List Exercise) :
    (execute_data none new).err = none ∧
    (execute_data none new).fs = some (.json (exercisesToJson new)) ∧
    parseExercises (.json (exercisesToJson new)) = some new :=
  ⟨rfl, rfl, parseExercises_serialized new⟩

/-- C5: a completed Matching authoring session reads its questions, then one
option per question — a single shared pool of exactly as many strings as
there are questions — and records for every question an answer drawn from
that one pool. -/
theorem C5_matching_shared_pool (inp : List Input) (ms : List Matching)
    (rest : List Input) (h : Matching.read inp = some (ms, rest)) :
    ∃ qs opts inp1 inp2,
      read_questions inp = some (qs, inp1) ∧
      read_options qs.length inp1 = some (opts, inp2) ∧
      opts.length = qs.length ∧
      ms.length = qs.length ∧
      ∀ m ∈ ms, m.answer ∈ opts := by
  simp only [Matching.read] at h
  cases hq : read_questions inp with
  | none => simp [hq] at h
  | some p =>
      obtain ⟨qs, inp1⟩ := p
      simp only [hq, Option.bind_eq_bind, Option.some_bind] at h
      cases ho : read_options qs.length inp1 with
      | none => simp [ho] at h
      | some p2 =>
          obtain ⟨opts, inp2⟩ := p2
          simp only [ho, Option.some_bind] at h
          refine ⟨qs, opts, inp1, inp2, rfl, ho,
            readCount_length (show readCount promptText qs.length inp1 =
              some (opts, inp2) from ho),
            readList_length h, ?_⟩
          refine readList_forall ?_ h
          intro q i b i' hb
          cases hps : promptSelect opts i with
          | none => simp [hps] at hb
          | some p3 =>
              obtain ⟨ans, i2⟩ := p3
              simp only [hps, Option.bind_eq_bind, Option.some_bind,
                Option.some.injEq, Prod.mk.injEq] at hb
              rw [← hb.1]
              exact promptSelect_mem hps

/-- Witness for C5: a Matching session of two questions sharing the pool
`x`, `y`; the recorded answers `y` and `x` both come from the pool. -/
theorem C5_matching_shared_pool_witness :
    ∃ qs opts inp1 inp2,
      read_questions [Input.nat 2, Input.text "q1", Input.text "q2",
        Input.text "x", Input.text "y", Input.select 1, Input.select 0] =
        some (qs, inp1) ∧
      read_options qs.length inp1 = some (opts, inp2) ∧
      opts.length = qs.length ∧
      [Matching.mk "q1" "y", Matching.mk "q2" "x"].length = qs.length ∧
      ∀ m ∈ [Matching.mk "q1" "y", Matching.mk "q2" "x"], m.answer ∈ opts :=
  C5_matching_shared_pool
    [Input.nat 2, Input.text "q1", Input.text "q2",
      Input.text "x", Input.text "y", Input.select 1, Input.select 0]
    [Matching.mk "q1" "y", Matching.mk "q2" "x"] [] rfl

/-- C6: a completed Mcq authoring session reads the question count `n` and
option count `m` upfront and then gives every one of its `n` questions its
own independently entered option list: each resulting entry stores exactly
its own `m` options and an answer that is a member of its own option list. -/
theorem C6_mcq_independent_options (inp : List Input) (ms : List Mcq)
    (rest : List Input) (h : Mcq.read inp = some (ms, rest)) :
    ∃ n m inp1 inp2,
      promptNat inp = some (n, inp1) ∧
      promptNat inp1 = some (m, inp2) ∧
      ms.length = n ∧
      ∀ e ∈ ms, e.options.length = m ∧ e.answer ∈ e.options := by
  simp only [Mcq.read] at h
  cases hn : promptNat inp with
  | none => simp [hn] at h
  | some p =>
      obtain ⟨n, inp1⟩ := p
      simp only [hn, Option.bind_eq_bind, Option.some_bind] at h
      cases hm : promptNat inp1 with
      | none => simp [hm] at h
      | some p2 =>
          obtain ⟨m, inp2⟩ := p2
          simp only [hm, Option.some_bind] at h
          refine ⟨n, m, inp1, inp2, rfl, hm, readCount_length h, ?_⟩
          refine readCount_forall ?_ h
          intro i b i' hb
          simp only [mcqQuestion] at hb
          cases hq : promptText i with
          | none => simp [hq] at hb
          | some p3 =>
              obtain ⟨q, i1⟩ := p3
              simp only [hq, Option.bind_eq_bind, Option.some_bind] at hb
              cases hopts : read_options m i1 with
              | none => simp [hopts] at hb
              | some p4 =>
                  obtain ⟨opts, i2⟩ := p4
                  simp only [hopts, Option.some_bind] at hb
                  cases hsel : promptSelect opts i2 with
                  | none => simp [hsel] at hb
                  | some p5 =>
                      obtain ⟨ans, i3⟩ := p5
                      simp only [hsel, Option.some_bind, Option.some.injEq,
                        Prod.mk.injEq] at hb
                      rw [← hb.1]
                      exact ⟨readCount_length (show readCount promptText m i1 =
                          some (opts, i2) from hopts),
                        promptSelect_mem hsel⟩

/-- Witness for C6: an Mcq session of two questions with disjoint option sets
`a`, `b` and `c`, `d`; each recorded answer belongs to its own question's
option set. -/
theorem C6_mcq_independent_options_witness :
    ∃ n m inp1 inp2,
      promptNat [Input.nat 2, Input.nat 2, Input.text "q1", Input.text "a",
        Input.text "b", Input.select 0, Input.text "q2", Input.text "c",
        Input.text "d", Input.select 1] = some (n, inp1) ∧
      promptNat inp1 = some (m, inp2) ∧
      [Mcq.mk "q1" "a" ["a", "b"], Mcq.mk "q2" "d" ["c", "d"]].length = n ∧
      ∀ e ∈ [Mcq.mk "q1" "a" ["a", "b"], Mcq.mk "q2" "d" ["c", "d"]],
        e.options.length = m ∧ e.answer ∈ e.options :=
  C6_mcq_independent_options
    [Input.nat 2, Input.nat 2, Input.text "q1", Input.text "a",
      Input.text "b", Input.select 0, Input.text "q2", Input.text "c",
      Input.text "d", Input.select 1]
    [Mcq.mk "q1" "a" ["a", "b"], Mcq.mk "q2" "d" ["c", "d"]] [] rfl

/-- C7: answering the question-count prompt with 0 gives, for each of the
five offered exercise types, an instance with an empty entry list and no
error (for Mcq the option-count prompt is still answered); at the top level
the empty instance is still produced and appended to the session's output
rather than omitted. -/
theorem C7_zero_count :
    (∀ rest, Matching.read (Input.nat 0 :: rest) = some ([], rest)) ∧
    (∀ rest, YesNo.read (Input.nat 0 :: rest) = some ([], rest)) ∧
    (∀ rest, Recall.read (Input.nat 0 :: rest) = some ([], rest)) ∧
    (∀ m rest, Mcq.read (Input.nat 0 :: Input.nat m :: rest) = some ([], rest)) ∧
    (∀ rest, RecognizeRoot.read (Input.nat 0 :: rest) = some ([], rest)) ∧
    (∀ fuel rest, Exercise.read (fuel + 2)
        (Input.select 0 :: Input.nat 0 :: Input.select 5 :: rest) =
      some ([Exercise.Matching []], rest)) ∧
    (∀ fuel rest, Exercise.read (fuel + 2)
        (Input.select 1 :: Input.nat 0 :: Input.select 5 :: rest) =
      some ([Exercise.YesNo []], rest)) ∧
    (∀ fuel rest, Exercise.read (fuel + 2)
        (Input.select 2 :: Input.nat 0 :: Input.select 5 :: rest) =
      some ([Exercise.Recall []], rest)) ∧
    (∀ fuel m rest, Exercise.read (fuel + 2)
        (Input.select 3 :: Input.nat 0 :: Input.nat m :: Input.select 5 :: rest) =
      some ([Exercise.Mcq []], rest)) ∧
    (∀ fuel rest, Exercise.read (fuel + 2)
        (Input.select 4 :: Input.nat 0 :: Input.select 5 :: rest) =
      some ([Exercise.RecognizeRoot []], rest)) :=
  ⟨fun _ => rfl, fun _ => rfl, fun _ => rfl, fun _ _ => rfl, fun _ => rfl,
   fun _ _ => rfl, fun _ _ => rfl, fun _ _ => rfl, fun _ _ _ => rfl, fun _ _ => rfl⟩

/-- Authorability predicate: true exactly on the five variants the entry
engine can construct, false on FillInTheBlank and SameOrOpposite. -/
def Exercise.authorable : Exercise → Bool
  | .FillInTheBlank _ => false
  | .SameOrOpposite _ => false
  | _ => true

/-- One non-stop arm of the top-level loop preserves authorability: if the
per-type reader succeeds, wrapping its batch and continuing yields only
authorable exercises, given that the continuation does. -/
theorem loop_arm_authorable {γ : Type} (reader : List Input → Option (γ × List Input))
    (wrap : γ → Exercise) (hwrap : ∀ x, (wrap x).authorable = true) (k : Nat)
    (ih : ∀ inp es rest, Exercise.read k inp = some (es, rest) →
      ∀ e ∈ es, e.authorable = true)
    {inp1 : List Input} {es : List Exercise} {rest : List Input}
    (h : (do
      let (xs, inp2) ← reader inp1
      let (es', inp3) ← Exercise.read k inp2
      some (wrap xs :: es', inp3)) = some (es, rest)) :
    ∀ e ∈ es, e.authorable = true := by
  cases hx : reader inp1 with
  | none => simp [hx] at h
  | some p =>
      obtain ⟨xs, inp2⟩ := p
      simp only [hx, Option.bind_eq_bind, Option.some_bind] at h
      cases hr : Exercise.read k inp2 with
      | none => simp [hr] at h
      | some p2 =>
          obtain ⟨es', inp3⟩ := p2
          simp only [hr, Option.some_bind, Option.some.injEq, Prod.mk.injEq] at h
          rw [← h.1]
          intro e he
          rcases List.mem_cons.mp he with h1 | h2
          · rw [h1]
            exact hwrap xs
          · exact ih inp2 es' inp3 hr e h2

/-- Every exercise a completed top-level session returns is of one of the
five authorable variants. -/
theorem Exercise.read_all_authorable (fuel : Nat) :
    ∀ inp es rest, Exercise.read fuel inp = some (es, rest) →
      ∀ e ∈ es, e.authorable = true := by
  induction fuel with
  | zero =>
      intro inp es rest h
      simp [Exercise.read] at h
  | succ k ih =>
      intro inp es rest h
      rw [Exercise.read] at h
      cases hsel : promptSelect EntryOptions.all inp with
      | none => simp [hsel] at h
      | some p =>
          obtain ⟨tp, inp1⟩ := p
          simp only [hsel, Option.bind_eq_bind, Option.some_bind] at h
          cases tp with
          | SaveAndQuit =>
              simp only [Option.some.injEq, Prod.mk.injEq] at h
              rw [← h.1]
              intro e he
              exact absurd he (List.not_mem_nil e)
          | Matching =>
              exact loop_arm_authorable Matching.read Exercise.Matching
                (fun _ => rfl) k ih h
          | YesNo =>
              exact loop_arm_authorable YesNo.read Exercise.YesNo
                (fun _ => rfl) k ih h
          | Recall =>
              exact loop_arm_authorable Recall.read Exercise.Recall
                (fun _ => rfl) k ih h
          | Mcq =>
              exact loop_arm_authorable Mcq.read Exercise.Mcq
                (fun _ => rfl) k ih h
          | RecognizeRoot =>
              exact loop_arm_authorable RecognizeRoot.read Exercise.RecognizeRoot
                (fun _ => rfl) k ih h

/-- C8: the top-level menu offers exactly the six choices Matching, YesNo,
Recall, Mcq, RecognizeRoot and SaveAndQuit (the stop choice); choosing stop
terminates the loop returning what was collected so far; each non-stop
choice contributes exactly one instance of the selected kind before the loop
continues; and a returned session never contains a FillInTheBlank or
SameOrOpposite instance. -/
theorem C8_menu_and_loop :
    EntryOptions.all =
      [EntryOptions.Matching, EntryOptions.YesNo, EntryOptions.Recall,
       EntryOptions.Mcq, EntryOptions.RecognizeRoot, EntryOptions.SaveAndQuit] ∧
    EntryOptions.all.length = 6 ∧
    (∀ fuel rest, Exercise.read (fuel + 1) (Input.select 5 :: rest) =
      some ([], rest)) ∧
    (∀ fuel inp, Exercise.read (fuel + 1) (Input.select 0 :: inp) =
      (Matching.read inp).bind fun p => (Exercise.read fuel p.2).bind fun q =>
        some (Exercise.Matching p.1 :: q.1, q.2)) ∧
    (∀ fuel inp, Exercise.read (fuel + 1) (Input.select 1 :: inp) =
      (YesNo.read inp).bind fun p => (Exercise.read fuel p.2).bind fun q =>
        some (Exercise.YesNo p.1 :: q.1, q.2)) ∧
    (∀ fuel inp, Exercise.read (fuel + 1) (Input.select 2 :: inp) =
      (Recall.read inp).bind fun p => (Exercise.read fuel p.2).bind fun q =>
        some (Exercise.Recall p.1 :: q.1, q.2)) ∧
    (∀ fuel inp, Exercise.read (fuel + 1) (Input.select 3 :: inp) =
      (Mcq.read inp).bind fun p => (Exercise.read fuel p.2).bind fun q =>
        some (Exercise.Mcq p.1 :: q.1, q.2)) ∧
    (∀ fuel inp, Exercise.read (fuel + 1) (Input.select 4 :: inp) =
      (RecognizeRoot.read inp).bind fun p => (Exercise.read fuel p.2).bind fun q =>
        some (Exercise.RecognizeRoot p.1 :: q.1, q.2)) ∧
    (∀ fuel inp es rest, Exercise.read fuel inp = some (es, rest) →
      ∀ e ∈ es, e.authorable = true) :=
  ⟨rfl, rfl, fun _ _ => rfl,
   fun _ _ => rfl, fun _ _ => rfl, fun _ _ => rfl, fun _ _ => rfl, fun _ _ => rfl,
   fun fuel inp es rest h => Exercise.read_all_authorable fuel inp es rest h⟩

/-- Witness for C8: a session authoring one empty Matching batch and then
stopping yields exactly that single authorable instance. -/
theorem C8_menu_and_loop_witness :
    Exercise.read 2 [Input.select 0, Input.nat 0, Input.select 5] =
      some ([Exercise.Matching []], []) ∧
    ∀ e ∈ [Exercise.Matching []], e.authorable = true :=
  ⟨rfl, C8_menu_and_loop.2.2.2.2.2.2.2.2 2
    [Input.select 0, Input.nat 0, Input.select 5] [Exercise.Matching []] [] rfl⟩

/-- When the entry engine fails (any prompt aborts), the `unwrap` panic
unwinds `main` before the storage file is read or written: the file state is
unchanged and the process dies with the panic exit status. -/
theorem main_of_read_none (args : List String) (fuel : Nat) (inp : List Input)
    (fs : Option FileContent) (hargs : args.contains "--input" = true)
    (habort : Exercise.read fuel inp = none) :
    main args fuel inp fs = ⟨fs, [], [panicMessage], panicExitCode⟩ := by
  simp only [main, hargs, if_true, habort]

/-- C9: whenever a prompt signals an abort anywhere in the entry engine, the
whole run terminates with the panic exit status and the Store is never
invoked — the storage file is left exactly as it was and nothing is
persisted. -/
theorem C9_abort_skips_store (args : List String) (fuel : Nat) (inp : List Input)
    (fs : Option FileContent) (hargs : args.contains "--input" = true)
    (habort : Exercise.read fuel inp = none) :
    main args fuel inp fs = ⟨fs, [], [panicMessage], panicExitCode⟩ :=
  main_of_read_none args fuel inp fs hargs habort

/-- Witness for C9: aborting at the very first prompt leaves a nonexistent
storage file nonexistent and exits with the panic status. -/
theorem C9_abort_skips_store_witness :
    (["word_power", "--input"].contains "--input" = true ∧
      Exercise.read 1 [Input.abort] = none) ∧
    main ["word_power", "--input"] 1 [Input.abort] none =
      ⟨none, [], [panicMessage], panicExitCode⟩ :=
  ⟨⟨rfl, rfl⟩, C9_abort_skips_store ["word_power", "--input"] 1 [Input.abort] none rfl rfl⟩

/-- C10: an Mcq session with question count at least 1 and option count 0
reaches the answer-selection menu over an empty option list, which cannot
return a value: the whole read fails, the run panics and the storage file is
untouched.  The leniency granted to a question count of 0 does not extend to
an option count of 0 — with zero questions the empty selection is never
presented and the session succeeds. -/
theorem C10_mcq_zero_options_fails :
    (∀ n rest, Mcq.read (Input.nat (n + 1) :: Input.nat 0 :: rest) = none) ∧
    (∀ fuel n rest fs,
      (main ["word_power", "--input"] (fuel + 1)
          (Input.select 3 :: Input.nat (n + 1) :: Input.nat 0 :: rest) fs).fs = fs ∧
      (main ["word_power", "--input"] (fuel + 1)
          (Input.select 3 :: Input.nat (n + 1) :: Input.nat 0 :: rest) fs).exitCode =
        panicExitCode) ∧
    (∀ m rest, Mcq.read (Input.nat 0 :: Input.nat m :: rest) = some ([], rest)) := by
  have hstep : ∀ rest : List Input, mcqQuestion 0 rest = none := by
    intro rest
    cases rest with
    | nil => rfl
    | cons a tl =>
        cases a with
        | text s =>
            simp [mcqQuestion, read_options, readCount, promptText, promptSelect_nil]
        | nat k => rfl
        | select i => rfl
        | confirm b => rfl
        | abort => rfl
  have hmcq : ∀ (n : Nat) (rest : List Input),
      Mcq.read (Input.nat (n + 1) :: Input.nat 0 :: rest) = none := by
    intro n rest
    show readCount (mcqQuestion 0) (n + 1) rest = none
    rw [readCount, hstep rest]
    rfl
  have hread : ∀ (fuel n : Nat) (rest : List Input), Exercise.read (fuel + 1)
      (Input.select 3 :: Input.nat (n + 1) :: Input.nat 0 :: rest) = none := by
    intro fuel n rest
    have hd : Exercise.read (fuel + 1)
        (Input.select 3 :: Input.nat (n + 1) :: Input.nat 0 :: rest) =
        (Mcq.read (Input.nat (n + 1) :: Input.nat 0 :: rest)).bind fun p =>
          (Exercise.read fuel p.2).bind fun q =>
            some (Exercise.Mcq p.1 :: q.1, q.2) := rfl
    rw [hd, hmcq n rest]
    rfl
  refine ⟨hmcq, ?_, fun m rest => rfl⟩
  intro fuel n rest fs
  have hm := main_of_read_none ["word_power", "--input"] (fuel + 1)
    (Input.select 3 :: Input.nat (n + 1) :: Input.nat 0 :: rest) fs rfl
    (hread fuel n rest)
  exact ⟨by rw [hm], by rw [hm]⟩

end WordPower
